import Mathlib

/-!
Verification of `flash_attention_fallback.py` (repository bmwas/lyra).

The file embeds the module shallowly, in four layers:

* a value-level embedding of `flash_attn_func` / `flash_attn_varlen_func`
  over the reals, where a float tensor of shape (B, S, H, D) is a function
  `Fin B → Fin S → Fin H → Fin D → ℝ`, the merged `batch * nheads` axis of the
  source's reshape is represented by the pair `Fin B × Fin H` (row-major
  `b * H + h`), and the `-inf` written by `masked_fill_` is `⊥ : WithBot ℝ`
  with `exp ⊥ = 0`, which is exactly the weight float softmax assigns to a
  masked entry of a row that also has finite entries;
* a shape/dtype metadata model of the same code path, where each tensor
  primitive (`transpose`, `reshape`, `matmul`) checks the conditions under
  which the real library raises, so that shape results and error
  propagation can be stated;
* a heap model, where the module body is replayed as explicit allocations
  into a list of flat buffers and the single in-place operation
  (`masked_fill_`, line 57) is an explicit `List.set`, so that non-mutation
  of the caller's tensors can be stated;
* a process model of the module-load advisory of the last line of the file
  (an unconditional top-level `print`), with the language's module cache
  (a module body runs only on first load) made explicit.
-/

namespace FlashFallback

noncomputable section

/-- A float tensor of shape (batch, seqlen, nheads, headdim), line 23 of the
source: values indexed as t[b, s, h, d]. -/
abbrev Tensor4 (B S H D : ℕ) := Fin B → Fin S → Fin H → Fin D → ℝ

/-- A tensor of shape (batch * nheads, seqlen, headdim); the merged leading
axis is represented by the pair (b, h), row-major. -/
abbrev Batched (B H S D : ℕ) := Fin B × Fin H → Fin S → Fin D → ℝ

/-- Lines 47-49: `x.transpose(1, 2).reshape(batch * nheads, seqlen, headdim)`.
After the transpose the element at [b, h, s, d] is x[b, s, h, d]; the reshape
merges the first two axes. -/
def toBatched {B S H D : ℕ} (t : Tensor4 B S H D) : Batched B H S D :=
  fun bh s d => t bh.1 s bh.2 d

/-- Line 52: `scores = torch.matmul(q, k.transpose(-2, -1)) * softmax_scale`. -/
def rawScores {B H S D : ℕ} (q k : Batched B H S D) (scale : ℝ) :
    Fin B × Fin H → Fin S → Fin S → ℝ :=
  fun bh i j => (∑ d, q bh i d * k bh j d) * scale

/-- Line 56: `torch.triu(torch.ones_like(scores), diagonal=1).bool()`:
entry (i, j) of the mask is set exactly when j > i. -/
def causalMask (S : ℕ) (i j : Fin S) : Bool := decide ((i : ℕ) < (j : ℕ))

/-- Line 57: `scores.masked_fill_(mask, float('-inf'))`, with `-inf`
modelled as `⊥ : WithBot ℝ`. -/
def maskedFill {B H S : ℕ} (s : Fin B × Fin H → Fin S → Fin S → ℝ) :
    Fin B × Fin H → Fin S → Fin S → WithBot ℝ :=
  fun bh i j => if causalMask S i j then ⊥ else (s bh i j : WithBot ℝ)

/-- Lines 52-57: the score matrix after the optional causal fill. -/
def scoresFor {B H S D : ℕ} (q k : Batched B H S D) (scale : ℝ) (causal : Bool) :
    Fin B × Fin H → Fin S → Fin S → WithBot ℝ :=
  fun bh i j =>
    if causal then maskedFill (rawScores q k scale) bh i j
    else (rawScores q k scale bh i j : WithBot ℝ)

/-- The exponential on scores-with-minus-infinity: `exp (-inf) = 0`, which is
the weight float softmax gives a masked entry of a row with finite entries. -/
def expWB : WithBot ℝ → ℝ := WithBot.recBotCoe 0 Real.exp

/-- Line 60: `F.softmax(scores, dim=-1)`, one row at a time. -/
def softmaxRow {S : ℕ} (row : Fin S → WithBot ℝ) (j : Fin S) : ℝ :=
  expWB (row j) / ∑ j', expWB (row j')

/-- Lines 52-60: the attention-weight matrix `attn_weights` of the source. -/
def attnWeights {B H S D : ℕ} (q k : Batched B H S D) (scale : ℝ) (causal : Bool) :
    Fin B × Fin H → Fin S → Fin S → ℝ :=
  fun bh i j => softmaxRow (scoresFor q k scale causal bh i) j

/-- Line 63: `out = torch.matmul(attn_weights, v)`. -/
def outBatched {B H S D : ℕ} (w : Fin B × Fin H → Fin S → Fin S → ℝ)
    (v : Batched B H S D) : Batched B H S D :=
  fun bh i d => ∑ j, w bh i j * v bh j d

/-- Line 66: `out.reshape(batch, nheads, seqlen, headdim).transpose(1, 2)`. -/
def fromBatched {B S H D : ℕ} (t : Batched B H S D) : Tensor4 B S H D :=
  fun b s h d => t (b, h) s d

/-- Lines 43-44: `if softmax_scale is None: softmax_scale = headdim ** -0.5`. -/
def effScale (D : ℕ) (softmax_scale : Option ℝ) : ℝ :=
  match softmax_scale with
  | none => (D : ℝ) ^ (-(0.5) : ℝ)
  | some s => s

/-- The attention-weight matrix `flash_attn_func` computes from its inputs. -/
def attnOf {B S H D : ℕ} (q k : Tensor4 B S H D) (softmax_scale : Option ℝ)
    (causal : Bool) : Fin B × Fin H → Fin S → Fin S → ℝ :=
  attnWeights (toBatched q) (toBatched k) (effScale D softmax_scale) causal

/-- Lines 17-68: `flash_attn_func`.  `dropout_p`, `window_size`,
`alibi_slopes` and `deterministic` are accepted and, as in the source,
never read. -/
def flash_attn_func {B S H D : ℕ} (q k v : Tensor4 B S H D) (dropout_p : ℝ)
    (softmax_scale : Option ℝ) (causal : Bool) (window_size : ℤ × ℤ)
    (alibi_slopes : Option (Fin H → ℝ)) (deterministic : Bool) :
    Tensor4 B S H D :=
  fromBatched (outBatched (attnOf q k softmax_scale causal) (toBatched v))

/-- Lines 71-88: `flash_attn_varlen_func` delegates to `flash_attn_func`,
reading none of the four ragged-batching parameters. -/
def flash_attn_varlen_func {B S H D : ℕ} (q k v : Tensor4 B S H D)
    (cu_seqlens_q cu_seqlens_k : List ℕ) (max_seqlen_q max_seqlen_k : ℕ)
    (dropout_p : ℝ) (softmax_scale : Option ℝ) (causal : Bool)
    (window_size : ℤ × ℤ) (alibi_slopes : Option (Fin H → ℝ))
    (deterministic : Bool) : Tensor4 B S H D :=
  flash_attn_func q k v dropout_p softmax_scale causal window_size
    alibi_slopes deterministic

/-- The all-ones query of the spec's concrete scenario (shape (1, 2, 1, 1)). -/
def qOnes : Tensor4 1 2 1 1 := fun _ _ _ _ => 1

/-- The all-ones key of the spec's concrete scenario. -/
def kOnes : Tensor4 1 2 1 1 := fun _ _ _ _ => 1

/-- The value [[10], [20]] of the spec's concrete scenario. -/
def vTen : Tensor4 1 2 1 1 := fun _ s _ _ => if (s : ℕ) = 0 then 10 else 20

end

namespace Meta

/-- Numeric classes (dtypes) of float tensors. -/
inductive DType
  | float16
  | float32
  | float64
deriving DecidableEq

/-- Dynamic tensor metadata: shape and numeric class; this is the part of a
tensor the shape/error claims are about. -/
structure TMeta where
  shape : List ℕ
  dtype : DType
deriving DecidableEq

/-- Errors raised by the underlying tensor primitives.  Each constructor is
raised by exactly one primitive; `flash_attn_meta` itself constructs none of
them. -/
inductive TErr
  | unpackArity (got : ℕ)
  | transposeDim (rank : ℕ) (d0 d1 : ℤ)
  | reshapeNumel (src tgt : List ℕ)
  | matmulShape (a b : List ℕ)
  | matmulDtype (a b : DType)
deriving DecidableEq

/-- Dimension normalization of the tensor library: a negative axis index
counts from the end; out-of-range indices are rejected. -/
def normDim (rank : ℕ) (d : ℤ) : Option ℕ :=
  let d' := if d < 0 then d + rank else d
  if 0 ≤ d' ∧ d' < rank then some d'.toNat else none

/-- `torch.Tensor.transpose(d0, d1)` on metadata: swaps two axes, raising on
an out-of-range axis. -/
def transposeMeta (t : TMeta) (d0 d1 : ℤ) : Except TErr TMeta :=
  match normDim t.shape.length d0, normDim t.shape.length d1 with
  | some i, some j =>
      .ok ⟨(t.shape.set i (t.shape.getD j 0)).set j (t.shape.getD i 0), t.dtype⟩
  | _, _ => .error (.transposeDim t.shape.length d0 d1)

/-- `torch.Tensor.reshape(tgt)` on metadata: raises unless the element
counts agree. -/
def reshapeMeta (t : TMeta) (tgt : List ℕ) : Except TErr TMeta :=
  if t.shape.prod = tgt.prod then .ok ⟨tgt, t.dtype⟩
  else .error (.reshapeNumel t.shape tgt)

/-- `torch.matmul` on metadata, in the batched 3-D form this code path uses:
raises on a dtype mismatch or on shapes that are not
[n, i, m] × [n, m, p]. -/
def matmulMeta (a b : TMeta) : Except TErr TMeta :=
  if a.dtype = b.dtype then
    match a.shape, b.shape with
    | [n, i, m], [n', m', p] =>
        if n = n' ∧ m = m' then .ok ⟨[n, i, p], a.dtype⟩
        else .error (.matmulShape a.shape b.shape)
    | _, _ => .error (.matmulShape a.shape b.shape)
  else .error (.matmulDtype a.dtype b.dtype)

/-- Multiplication by the python float `softmax_scale` (line 52): metadata
preserved. -/
def scaleMulMeta (t : TMeta) : TMeta := t

/-- `masked_fill_` with the same-shaped mask of line 56: metadata
preserved. -/
def maskedFillMeta (t : TMeta) : TMeta := t

/-- `F.softmax(scores, dim=-1)` (line 60): metadata preserved (the axis -1
is in range for every tensor reaching this point). -/
def softmaxMeta (t : TMeta) : TMeta := t

/-- Line 40: `batch, seqlen, nheads, headdim = q.shape`; unpacking raises
unless the shape has exactly four entries. -/
def unpack4 (t : TMeta) : Except TErr (ℕ × ℕ × ℕ × ℕ) :=
  match t.shape with
  | [a, b, c, d] => .ok (a, b, c, d)
  | l => .error (.unpackArity l.length)

/-- Lines 47-49: the three transpose-and-reshape preparations. -/
def qkvPrep (q k v : TMeta) (batch seqlen nheads headdim : ℕ) :
    Except TErr (TMeta × TMeta × TMeta) := do
  let q1 ← transposeMeta q 1 2
  let qr ← reshapeMeta q1 [batch * nheads, seqlen, headdim]
  let k1 ← transposeMeta k 1 2
  let kr ← reshapeMeta k1 [batch * nheads, seqlen, headdim]
  let v1 ← transposeMeta v 1 2
  let vr ← reshapeMeta v1 [batch * nheads, seqlen, headdim]
  return (qr, kr, vr)

/-- Lines 52-63: scores, optional causal fill, softmax, output matmul. -/
def corePrim (qr kr vr : TMeta) (causal : Bool) : Except TErr TMeta := do
  let kt ← transposeMeta kr (-2) (-1)
  let scores ← matmulMeta qr kt
  let scores := scaleMulMeta scores
  let scores := if causal then maskedFillMeta scores else scores
  let attn := softmaxMeta scores
  matmulMeta attn vr

/-- Lines 40-68 of `flash_attn_func` on metadata: the primitives are chained
with no validation of its own and no handling of their errors. -/
def flash_attn_meta (q k v : TMeta) (causal : Bool) : Except TErr TMeta := do
  let (batch, seqlen, nheads, headdim) ← unpack4 q
  let (qr, kr, vr) ← qkvPrep q k v batch seqlen nheads headdim
  let out ← corePrim qr kr vr causal
  let out2 ← reshapeMeta out [batch, nheads, seqlen, headdim]
  transposeMeta out2 1 2

end Meta

namespace Heap

noncomputable section

/-- A storage buffer: flat row-major float data; `⊥` is a stored `-inf`. -/
abbrev Buf := List (WithBot ℝ)

/-- Decode a flat row-major (B, S, H, D) buffer into a value-level tensor
(out-of-range and `-inf` cells decode to 0; the inputs of the claims are
finite and in range). -/
def read4 (B S H D : ℕ) (l : Buf) : Tensor4 B S H D :=
  fun b s h d => (l.getD ((((b : ℕ) * S + (s : ℕ)) * H + (h : ℕ)) * D + (d : ℕ)) ⊥).unbot' 0

/-- Flatten a (B·H, S, D) real tensor into a buffer, row-major. -/
def flatB (B H S D : ℕ) (t : Batched B H S D) : Buf :=
  (List.finRange B).flatMap fun b => (List.finRange H).flatMap fun h =>
    (List.finRange S).flatMap fun s => (List.finRange D).map fun d =>
      ((t (b, h) s d : ℝ) : WithBot ℝ)

/-- Flatten a (B·H, S, S) score-shaped tensor into a buffer, row-major. -/
def flatS (B H S : ℕ) (t : Fin B × Fin H → Fin S → Fin S → WithBot ℝ) : Buf :=
  (List.finRange B).flatMap fun b => (List.finRange H).flatMap fun h =>
    (List.finRange S).flatMap fun i => (List.finRange S).map fun j => t (b, h) i j

/-- The buffers a call appends to the heap, computed from the contents of
the three input buffers: the three reshape copies of lines 47-49 (a reshape
of the non-contiguous transposed view copies), then for the causal path the
scores buffer of line 52 already overwritten in place by line 57 plus the
mask buffer of line 56, or for the non-causal path the untouched scores
buffer, then the softmax output of line 60 and the matmul output of
line 63. -/
def tailHeap (B S H D : ℕ) (bq bk bv : Buf) (sc : Option ℝ) (causal : Bool) :
    List Buf :=
  let q := read4 B S H D bq
  let k := read4 B S H D bk
  let v := read4 B S H D bv
  let scale := effScale D sc
  let qr := flatB B H S D (toBatched q)
  let kr := flatB B H S D (toBatched k)
  let vr := flatB B H S D (toBatched v)
  let scores := flatS B H S
    (fun bh i j => ((rawScores (toBatched q) (toBatched k) scale bh i j : ℝ) : WithBot ℝ))
  let mask := flatS B H S (fun bh i j => if causalMask S i j then 1 else 0)
  let masked := flatS B H S (maskedFill (rawScores (toBatched q) (toBatched k) scale))
  let attn := flatS B H S
    (fun bh i j => ((attnWeights (toBatched q) (toBatched k) scale causal bh i j : ℝ) : WithBot ℝ))
  let out := flatB B H S D
    (outBatched (attnWeights (toBatched q) (toBatched k) scale causal) (toBatched v))
  if causal then [qr, kr, vr, masked, mask, attn, out]
  else [qr, kr, vr, scores, attn, out]

/-- The body of `flash_attn_func` replayed against an explicit heap of
buffers.  `torch.matmul`, the mask construction of line 56, `F.softmax` and
the copying reshapes of lines 47-49 each append a fresh buffer;
`masked_fill_` (line 57) is the only in-place write, a `List.set` on the
scores buffer; line 66 only re-views the output buffer of line 63.  Returns
the final heap and the index of the buffer the returned tensor aliases. -/
def flashAttnHeap (B S H D : ℕ) (heap : List Buf) (qi ki vi : ℕ)
    (softmax_scale : Option ℝ) (causal : Bool) : List Buf × ℕ :=
  let q := read4 B S H D (heap.getD qi [])
  let k := read4 B S H D (heap.getD ki [])
  let v := read4 B S H D (heap.getD vi [])
  let scale := effScale D softmax_scale
  let h3 := heap ++ [flatB B H S D (toBatched q), flatB B H S D (toBatched k),
    flatB B H S D (toBatched v)]
  let scoresIdx := h3.length
  let h4 := h3 ++ [flatS B H S
    (fun bh i j => ((rawScores (toBatched q) (toBatched k) scale bh i j : ℝ) : WithBot ℝ))]
  let h5 := if causal then
      (h4 ++ [flatS B H S (fun bh i j => if causalMask S i j then 1 else 0)]).set
        scoresIdx (flatS B H S (maskedFill (rawScores (toBatched q) (toBatched k) scale)))
    else h4
  let h6 := h5 ++ [flatS B H S
    (fun bh i j => ((attnWeights (toBatched q) (toBatched k) scale causal bh i j : ℝ) : WithBot ℝ))]
  let outIdx := h6.length
  let h7 := h6 ++ [flatB B H S D
    (outBatched (attnWeights (toBatched q) (toBatched k) scale causal) (toBatched v))]
  (h7, outIdx)

/-- The contents of the buffer holding the tensor a call returns. -/
def runOut (B S H D : ℕ) (heap : List Buf) (qi ki vi : ℕ)
    (softmax_scale : Option ℝ) (causal : Bool) : Buf :=
  ((flashAttnHeap B S H D heap qi ki vi softmax_scale causal).1).getD
    (flashAttnHeap B S H D heap qi ki vi softmax_scale causal).2 []

/-- A three-buffer heap with empty buffers, used as a concrete witness
heap. -/
def heap0 : List Buf := [[], [], []]

end

end Heap

namespace Proc

/-- Events of a process using the module: an import of the module, or calls
of the two entry points. -/
inductive Event
  | importMod
  | callFixed
  | callVarlen

/-- Observable process state: whether the module is in the module cache,
how many times the import-time advisory of line 108 has been printed, and
how many `warnings.warn` notifications the entry points have issued. -/
structure PState where
  moduleLoaded : Bool
  advisoryPrints : ℕ
  warnCalls : ℕ
deriving DecidableEq

/-- One event.  The language's import system runs a module body only when
the module is not yet in the cache; the body ends with an unconditional
`print` of the fallback advisory (line 108).  The entry points only issue
`warnings.warn` notifications (lines 34-37 and 80-83; the varlen entry
point warns and then delegates to the fixed entry point, which warns
again); they never print the load advisory. -/
def stepProc : PState → Event → PState
  | st, .importMod =>
      if st.moduleLoaded then st
      else { st with moduleLoaded := true, advisoryPrints := st.advisoryPrints + 1 }
  | st, .callFixed => { st with warnCalls := st.warnCalls + 1 }
  | st, .callVarlen => { st with warnCalls := st.warnCalls + 2 }

/-- Run a sequence of events. -/
def runProc (st : PState) (evs : List Event) : PState := evs.foldl stepProc st

/-- A fresh process: module not loaded, nothing printed. -/
def initState : PState := ⟨false, 0, 0⟩

end Proc

lemma expWB_bot : expWB ⊥ = 0 := rfl

lemma expWB_coe (r : ℝ) : expWB (r : WithBot ℝ) = Real.exp r := rfl

lemma expWB_nonneg (x : WithBot ℝ) : 0 ≤ expWB x := by
  induction x using WithBot.recBotCoe with
  | bot => simp [expWB_bot]
  | coe r => simpa [expWB_coe] using (Real.exp_pos r).le

lemma scoresFor_diag {B H S D : ℕ} (q k : Batched B H S D) (scale : ℝ)
    (causal : Bool) (bh : Fin B × Fin H) (i : Fin S) :
    scoresFor q k scale causal bh i i = (rawScores q k scale bh i i : WithBot ℝ) := by
  cases causal <;> simp [scoresFor, maskedFill, causalMask]

lemma denom_pos {B H S D : ℕ} (q k : Batched B H S D) (scale : ℝ)
    (causal : Bool) (bh : Fin B × Fin H) (i : Fin S) :
    0 < ∑ j, expWB (scoresFor q k scale causal bh i j) := by
  have hle : expWB (scoresFor q k scale causal bh i i)
      ≤ ∑ j, expWB (scoresFor q k scale causal bh i j) :=
    Finset.single_le_sum (fun j _ => expWB_nonneg _) (Finset.mem_univ i)
  have hpos : 0 < expWB (scoresFor q k scale causal bh i i) := by
    rw [scoresFor_diag, expWB_coe]
    exact Real.exp_pos _
  exact lt_of_lt_of_le hpos hle

lemma attnWeights_nonneg {B H S D : ℕ} (q k : Batched B H S D) (scale : ℝ)
    (causal : Bool) (bh : Fin B × Fin H) (i j : Fin S) :
    0 ≤ attnWeights q k scale causal bh i j :=
  div_nonneg (expWB_nonneg _) (denom_pos q k scale causal bh i).le

lemma attnWeights_row_sum {B H S D : ℕ} (q k : Batched B H S D) (scale : ℝ)
    (causal : Bool) (bh : Fin B × Fin H) (i : Fin S) :
    ∑ j, attnWeights q k scale causal bh i j = 1 := by
  unfold attnWeights softmaxRow
  rw [← Finset.sum_div]
  exact div_self (denom_pos q k scale causal bh i).ne'

lemma attnWeights_future_zero {B H S D : ℕ} (q k : Batched B H S D) (scale : ℝ)
    (bh : Fin B × Fin H) (i j : Fin S) (hij : (i : ℕ) < (j : ℕ)) :
    attnWeights q k scale true bh i j = 0 := by
  unfold attnWeights softmaxRow
  have hbot : scoresFor q k scale true bh i j = ⊥ := by
    simp [scoresFor, maskedFill, causalMask, hij]
  rw [hbot, expWB_bot, zero_div]

lemma outBatched_causal {B H S D : ℕ} (q k : Batched B H S D) (scale : ℝ)
    (v : Batched B H S D) (bh : Fin B × Fin H) (i : Fin S) (d : Fin D) :
    outBatched (attnWeights q k scale true) v bh i d
      = ∑ j ∈ Finset.univ.filter (fun j : Fin S => (j : ℕ) ≤ (i : ℕ)),
          attnWeights q k scale true bh i j * v bh j d := by
  unfold outBatched
  symm
  apply Finset.sum_filter_of_ne
  intro j _ hne
  by_contra hle
  push_neg at hle
  exact hne (by rw [attnWeights_future_zero q k scale bh i j hle, zero_mul])

lemma setAppendRight {α : Type _} (p q' : List α) (n : ℕ) (a : α) :
    (p ++ q').set (p.length + n) a = p ++ q'.set n a := by
  induction p with
  | nil => simp
  | cons x xs ih =>
    simp only [List.cons_append, List.length_cons]
    rw [Nat.succ_add]
    simp [List.set, ih]

lemma flashAttnHeap_eq (B S H D : ℕ) (heap : List Heap.Buf) (qi ki vi : ℕ)
    (sc : Option ℝ) (causal : Bool) :
    Heap.flashAttnHeap B S H D heap qi ki vi sc causal
      = (heap ++ Heap.tailHeap B S H D (heap.getD qi []) (heap.getD ki [])
           (heap.getD vi []) sc causal,
         heap.length + (if causal then 6 else 5)) := by
  cases causal with
  | false =>
    simp [Heap.flashAttnHeap, Heap.tailHeap]
  | true =>
    have hset : ∀ (a b c d e f : Heap.Buf),
        ((heap ++ [a, b, c, d, e]).set (heap.length + 3) f)
          = heap ++ [a, b, c, f, e] := by
      intro a b c d e f
      rw [setAppendRight]
      simp [List.set]
    simp only [Heap.flashAttnHeap, Heap.tailHeap, if_true, List.length_append,
      List.append_assoc, List.cons_append, List.nil_append, List.singleton_append]
    simp [hset, List.length_append]

lemma flashAttnHeap_frame (B S H D : ℕ) (heap : List Heap.Buf) (qi ki vi : ℕ)
    (sc : Option ℝ) (causal : Bool) (j : ℕ) (hj : j < heap.length) :
    ((Heap.flashAttnHeap B S H D heap qi ki vi sc causal).1).getD j []
      = heap.getD j [] := by
  rw [flashAttnHeap_eq]
  exact List.getD_append _ _ _ _ hj

lemma flashAttnHeap_out (B S H D : ℕ) (heap : List Heap.Buf) (qi ki vi : ℕ)
    (sc : Option ℝ) (causal : Bool) :
    Heap.runOut B S H D heap qi ki vi sc causal
      = (Heap.tailHeap B S H D (heap.getD qi []) (heap.getD ki [])
          (heap.getD vi []) sc causal).getD (if causal then 6 else 5) [] := by
  unfold Heap.runOut
  rw [flashAttnHeap_eq]
  rw [List.getD_append_right _ _ _ _ (Nat.le_add_right _ _),
    Nat.add_sub_cancel_left]

lemma runProc_keeps (evs : List Proc.Event) (st : Proc.PState)
    (h : st.moduleLoaded = true) :
    (Proc.runProc st evs).moduleLoaded = true
    ∧ (Proc.runProc st evs).advisoryPrints = st.advisoryPrints := by
  induction evs generalizing st with
  | nil => exact ⟨h, rfl⟩
  | cons e evs ih =>
    have hrun : Proc.runProc st (e :: evs) = Proc.runProc (Proc.stepProc st e) evs := rfl
    rw [hrun]
    cases e with
    | importMod =>
      rw [show Proc.stepProc st .importMod = st from by simp [Proc.stepProc, h]]
      exact ih st h
    | callFixed => exact ih _ h
    | callVarlen => exact ih _ h

/-- C1: every row of the attention-weight matrix produced by
`flash_attn_func` is a probability distribution (nonnegative entries summing
to 1); with `causal = true` the weight on any key position `j > i` is zero,
so the output at query position `i` is a convex combination of the value
rows `0..i` only. -/
theorem flash_attn_rows_convex (B S H D : ℕ) (q k v : Tensor4 B S H D)
    (dropout_p : ℝ) (sc : Option ℝ) (causal : Bool) (window_size : ℤ × ℤ)
    (alibi_slopes : Option (Fin H → ℝ)) (deterministic : Bool)
    (b : Fin B) (hh : Fin H) (i : Fin S) :
    (∑ j, attnOf q k sc causal (b, hh) i j) = 1
    ∧ (∀ j, 0 ≤ attnOf q k sc causal (b, hh) i j)
    ∧ (causal = true → ∀ j : Fin S, (i : ℕ) < (j : ℕ) →
        attnOf q k sc causal (b, hh) i j = 0)
    ∧ (causal = true → ∀ d : Fin D,
        flash_attn_func q k v dropout_p sc causal window_size alibi_slopes
            deterministic b i hh d
          = ∑ j ∈ Finset.univ.filter (fun j : Fin S => (j : ℕ) ≤ (i : ℕ)),
              attnOf q k sc causal (b, hh) i j * v b j hh d) := by
  refine ⟨attnWeights_row_sum _ _ _ _ _ _,
    fun j => attnWeights_nonneg _ _ _ _ _ _ _, ?_, ?_⟩
  · rintro rfl j hij
    exact attnWeights_future_zero _ _ _ _ _ _ hij
  · rintro rfl d
    exact outBatched_causal (toBatched q) (toBatched k) (effScale D sc)
      (toBatched v) (b, hh) i d

/-- Witness for C1 at B = 1, S = 2, H = 1, D = 1, all-ones query/key, causal
path, query position 0. -/
theorem flash_attn_rows_convex_witness :
    (∑ j, attnOf qOnes kOnes none true (0, 0) 0 j) = 1
    ∧ 0 ≤ attnOf qOnes kOnes none true (0, 0) 0 1
    ∧ attnOf qOnes kOnes none true (0, 0) 0 1 = 0
    ∧ flash_attn_func qOnes kOnes vTen 0 none true (-1, -1) none false 0 0 0 0
        = ∑ j ∈ Finset.univ.filter (fun j : Fin 2 => (j : ℕ) ≤ 0),
            attnOf qOnes kOnes none true (0, 0) 0 j * vTen 0 j 0 0 := by
  obtain ⟨h1, h2, h3, h4⟩ := flash_attn_rows_convex 1 2 1 1 qOnes kOnes vTen
    0 none true (-1, -1) none false 0 0 0
  exact ⟨h1, h2 1, h3 rfl 1 (by decide), h4 rfl 0⟩

/-- C2: the concrete scenario batch = 1, seqlen = 2, heads = 1, headdim = 1,
query = key = all ones, value = [[10], [20]], default scale: the output is
[[15], [15]] for causal = false, and [[10], [15]] for causal = true. -/
theorem flash_attn_concrete_scenario :
    flash_attn_func qOnes kOnes vTen 0 none false (-1, -1) none false 0 0 0 0 = 15
    ∧ flash_attn_func qOnes kOnes vTen 0 none false (-1, -1) none false 0 1 0 0 = 15
    ∧ flash_attn_func qOnes kOnes vTen 0 none true (-1, -1) none false 0 0 0 0 = 10
    ∧ flash_attn_func qOnes kOnes vTen 0 none true (-1, -1) none false 0 1 0 0 = 15 := by
  have he := Real.exp_pos (1 : ℝ)
  refine ⟨?_, ?_, ?_, ?_⟩ <;>
  · simp [flash_attn_func, fromBatched, outBatched, attnOf, attnWeights,
      softmaxRow, scoresFor, maskedFill, causalMask, rawScores, toBatched,
      effScale, expWB, qOnes, kOnes, vTen, Fin.sum_univ_two, Fin.sum_univ_one,
      Real.one_rpow, WithBot.recBotCoe]
    try field_simp
    try ring

/-- C3: with `softmax_scale = None` the raw scores are multiplied by
`headdim ** -0.5` (an inverse square root of the last axis of the query),
and an explicit scale replaces that default exactly, all the way through
`flash_attn_func`. -/
theorem flash_attn_scale_default_override (B S H D : ℕ) (q k v : Tensor4 B S H D)
    (dropout_p : ℝ) (s : ℝ) (causal : Bool) (window_size : ℤ × ℤ)
    (alibi_slopes : Option (Fin H → ℝ)) (deterministic : Bool)
    (bh : Fin B × Fin H) (i j : Fin S) :
    rawScores (toBatched q) (toBatched k) (effScale D none) bh i j
        = (∑ d, toBatched q bh i d * toBatched k bh j d) * ((D : ℝ) ^ (-(0.5) : ℝ))
    ∧ rawScores (toBatched q) (toBatched k) (effScale D (some s)) bh i j
        = (∑ d, toBatched q bh i d * toBatched k bh j d) * s
    ∧ (D : ℝ) ^ (-(0.5) : ℝ) = (Real.sqrt (D : ℝ))⁻¹
    ∧ flash_attn_func q k v dropout_p none causal window_size alibi_slopes
          deterministic
        = flash_attn_func q k v dropout_p (some ((D : ℝ) ^ (-(0.5) : ℝ))) causal
            window_size alibi_slopes deterministic := by
  refine ⟨rfl, rfl, ?_, rfl⟩
  have h05 : (-(0.5) : ℝ) = -(1 / 2 : ℝ) := by norm_num
  rw [h05, Real.rpow_neg (Nat.cast_nonneg D), Real.sqrt_eq_rpow]

/-- C4: on three (B, S, H, D)-shaped inputs of one numeric class, the chain
of reshapes, transposes, matmuls and softmax of `flash_attn_func` succeeds
and returns a tensor of exactly the query's shape and numeric class, for
both values of the causal flag. -/
theorem flash_attn_output_shape (B S H D : ℕ) (dt : Meta.DType) (causal : Bool) :
    Meta.flash_attn_meta ⟨[B, S, H, D], dt⟩ ⟨[B, S, H, D], dt⟩
        ⟨[B, S, H, D], dt⟩ causal
      = .ok ⟨[B, S, H, D], dt⟩ := by
  simp +decide [Meta.flash_attn_meta, Meta.unpack4, Meta.qkvPrep, Meta.corePrim,
    Meta.transposeMeta, Meta.reshapeMeta, Meta.matmulMeta, Meta.normDim,
    Meta.scaleMulMeta, Meta.maskedFillMeta, Meta.softmaxMeta, bind,
    Except.bind, pure, Except.pure, mul_assoc]

/-- C5: `flash_attn_varlen_func` returns exactly what `flash_attn_func`
returns on the same query/key/value and shared parameters; the four
ragged-batching parameters have no influence. -/
theorem varlen_equals_fixed (B S H D : ℕ) (q k v : Tensor4 B S H D)
    (cs1 cs2 : List ℕ) (m1 m2 : ℕ) (dp : ℝ) (sc : Option ℝ) (c : Bool)
    (ws : ℤ × ℤ) (al : Option (Fin H → ℝ)) (det : Bool) :
    flash_attn_varlen_func q k v cs1 cs2 m1 m2 dp sc c ws al det
      = flash_attn_func q k v dp sc c ws al det := rfl

/-- C6: `flash_attn_func` validates nothing itself: an error of the shape
unpacking, of the transpose/reshape preparations, or of the score/output
primitives surfaces verbatim as the call's result. -/
theorem flash_attn_no_validation (q k v : Meta.TMeta) (causal : Bool)
    (e : Meta.TErr) (batch seqlen nheads headdim : ℕ) (qr kr vr : Meta.TMeta) :
    (Meta.unpack4 q = .error e →
      Meta.flash_attn_meta q k v causal = .error e)
    ∧ (Meta.unpack4 q = .ok (batch, seqlen, nheads, headdim) →
        Meta.qkvPrep q k v batch seqlen nheads headdim = .error e →
        Meta.flash_attn_meta q k v causal = .error e)
    ∧ (Meta.unpack4 q = .ok (batch, seqlen, nheads, headdim) →
        Meta.qkvPrep q k v batch seqlen nheads headdim = .ok (qr, kr, vr) →
        Meta.corePrim qr kr vr causal = .error e →
        Meta.flash_attn_meta q k v causal = .error e) := by
  refine ⟨?_, ?_, ?_⟩
  · intro h1
    simp [Meta.flash_attn_meta, h1, bind, Except.bind]
  · intro h1 h2
    simp [Meta.flash_attn_meta, h1, h2, bind, Except.bind]
  · intro h1 h2 h3
    simp [Meta.flash_attn_meta, h1, h2, h3, bind, Except.bind]

/-- Witness for C6: a rank-3 query makes the unpacking of line 40 raise, and
a float32/float64 key mismatch makes the scores matmul of line 52 raise; in
both cases `flash_attn_func` returns that primitive error verbatim. -/
theorem flash_attn_no_validation_witness :
    Meta.flash_attn_meta ⟨[2, 3, 4], .float32⟩ ⟨[2, 3, 4], .float32⟩
        ⟨[2, 3, 4], .float32⟩ false
      = .error (.unpackArity 3)
    ∧ Meta.flash_attn_meta ⟨[1, 2, 1, 1], .float32⟩ ⟨[1, 2, 1, 1], .float64⟩
        ⟨[1, 2, 1, 1], .float32⟩ false
      = .error (.matmulDtype .float32 .float64) := by
  constructor
  · exact (flash_attn_no_validation ⟨[2, 3, 4], .float32⟩ ⟨[2, 3, 4], .float32⟩
      ⟨[2, 3, 4], .float32⟩ false (.unpackArity 3) 0 0 0 0 ⟨[], .float32⟩
      ⟨[], .float32⟩ ⟨[], .float32⟩).1 rfl
  · exact (flash_attn_no_validation ⟨[1, 2, 1, 1], .float32⟩
      ⟨[1, 2, 1, 1], .float64⟩ ⟨[1, 2, 1, 1], .float32⟩ false
      (.matmulDtype .float32 .float64) 1 2 1 1 ⟨[1, 2, 1], .float32⟩
      ⟨[1, 2, 1], .float64⟩ ⟨[1, 2, 1], .float32⟩).2.2 rfl rfl rfl

/-- C7: `dropout_p`, `window_size`, `alibi_slopes` and `deterministic` have
no effect: calls agreeing on query, key, value, scale and the causal flag
return identical tensors whatever those four are. -/
theorem flash_attn_inert_params (B S H D : ℕ) (q k v : Tensor4 B S H D)
    (sc : Option ℝ) (c : Bool) (dp1 dp2 : ℝ) (ws1 ws2 : ℤ × ℤ)
    (al1 al2 : Option (Fin H → ℝ)) (det1 det2 : Bool) :
    flash_attn_func q k v dp1 sc c ws1 al1 det1
      = flash_attn_func q k v dp2 sc c ws2 al2 det2 := rfl

/-- C8: `flash_attn_func` is deterministic: it is a pure function of its
arguments, and replaying a second call against the heap left by a first
call with the same argument buffers produces a bit-identical output
buffer. -/
theorem flash_attn_repeat_identical (B S H D : ℕ) (q k v : Tensor4 B S H D)
    (dp : ℝ) (sc : Option ℝ) (c : Bool) (ws : ℤ × ℤ)
    (al : Option (Fin H → ℝ)) (det : Bool) (heap : List Heap.Buf)
    (qi ki vi : ℕ) (hq : qi < heap.length) (hk : ki < heap.length)
    (hv : vi < heap.length) :
    flash_attn_func q k v dp sc c ws al det
      = flash_attn_func q k v dp sc c ws al det
    ∧ Heap.runOut B S H D ((Heap.flashAttnHeap B S H D heap qi ki vi sc c).1)
        qi ki vi sc c
      = Heap.runOut B S H D heap qi ki vi sc c := by
  refine ⟨rfl, ?_⟩
  rw [flashAttnHeap_out, flashAttnHeap_out,
    flashAttnHeap_frame B S H D heap qi ki vi sc c qi hq,
    flashAttnHeap_frame B S H D heap qi ki vi sc c ki hk,
    flashAttnHeap_frame B S H D heap qi ki vi sc c vi hv]

/-- Witness for C8 on a three-buffer heap. -/
theorem flash_attn_repeat_identical_witness :
    flash_attn_func qOnes kOnes vTen 0 none false (-1, -1) none false
      = flash_attn_func qOnes kOnes vTen 0 none false (-1, -1) none false
    ∧ Heap.runOut 1 2 1 1 ((Heap.flashAttnHeap 1 2 1 1 Heap.heap0 0 1 2 none false).1)
        0 1 2 none false
      = Heap.runOut 1 2 1 1 Heap.heap0 0 1 2 none false :=
  flash_attn_repeat_identical 1 2 1 1 qOnes kOnes vTen 0 none false (-1, -1)
    none false Heap.heap0 0 1 2 (by decide) (by decide) (by decide)

/-- C9: a call leaves every pre-existing buffer - in particular the
caller's query, key and value - exactly as it was: the only in-place write,
the `masked_fill_` of line 57, targets the freshly allocated scores buffer. -/
theorem flash_attn_no_input_mutation (B S H D : ℕ) (heap : List Heap.Buf)
    (qi ki vi : ℕ) (sc : Option ℝ) (causal : Bool) (j : ℕ)
    (hj : j < heap.length) :
    ((Heap.flashAttnHeap B S H D heap qi ki vi sc causal).1).getD j []
      = heap.getD j [] :=
  flashAttnHeap_frame B S H D heap qi ki vi sc causal j hj

/-- Witness for C9 on the causal path. -/
theorem flash_attn_no_input_mutation_witness :
    ((Heap.flashAttnHeap 1 2 1 1 Heap.heap0 0 1 2 none true).1).getD 0 []
      = Heap.heap0.getD 0 [] :=
  flash_attn_no_input_mutation 1 2 1 1 Heap.heap0 0 1 2 none true 0 (by decide)

/-- C10: in a process that imports the module and then performs any
sequence of further imports and entry-point calls, the fallback advisory of
line 108 is printed exactly once. -/
theorem advisory_printed_once (evs : List Proc.Event) :
    (Proc.runProc Proc.initState (Proc.Event.importMod :: evs)).advisoryPrints = 1
    ∧ (Proc.runProc Proc.initState (Proc.Event.importMod :: evs)).moduleLoaded
        = true := by
  have hrun : Proc.runProc Proc.initState (Proc.Event.importMod :: evs)
      = Proc.runProc ⟨true, 1, 0⟩ evs := rfl
  rw [hrun]
  obtain ⟨hl, hp⟩ := runProc_keeps evs ⟨true, 1, 0⟩ rfl
  exact ⟨hp, hl⟩

end FlashFallback
